import Mathlib

/-!
# getluckystunport: port extraction, URL templating and the request flow of `main`

A shallow embedding of `main.go`.  A Go `string` is modelled as the list of its
characters (`Str`).  The separator `":"` and the token `"port"` are ASCII, so
for well-formed UTF-8 text scanning characters and scanning bytes find the same
occurrences.

The Go standard library functions the program calls are modelled by their
documented behaviour (`strings.Split`, `strings.ReplaceAll`, `fmt`), and the ones
that talk to the outside world or are large parsers (`http.Get`,
`json.Decoder.Decode`, `url.Parse`, `URL.String`) are parameters of the model.
-/

set_option autoImplicit false
set_option linter.dupNamespace false

namespace GetLuckyStunPort

/-- A Go string: the sequence of its characters. -/
abbrev Str := List Char

/-! ## `strings.Split` and `strings.ReplaceAll` -/

/-- Scanning loop of `strings.Split` for a non-empty separator.  The first argument
counts the characters of an already matched separator that remain to be stepped
over; with it at `0` the separator is looked for at the current position. -/
def splitScan (sep : Str) : Nat → Str → List Str
  | _, [] => [[]]
  | k + 1, _ :: cs => splitScan sep k cs
  | 0, c :: cs =>
    if sep.isPrefixOf (c :: cs) then
      [] :: splitScan sep (sep.length - 1) cs
    else
      match splitScan sep 0 cs with
      | [] => [[c]]
      | seg :: segs => (c :: seg) :: segs

/-- Go `strings.Split(s, sep)`: the substrings of `s` between the occurrences of
`sep`, found left to right without overlap.  With an empty separator the string is
split after each character. -/
def Split (s sep : Str) : List Str :=
  if sep = [] then s.map (fun c => [c]) else splitScan sep 0 s

/-- Scanning loop of `strings.ReplaceAll` for a non-empty `old`; the counter plays
the same role as in `splitScan`. -/
def replaceScan (old new : Str) : Nat → Str → Str
  | _, [] => []
  | k + 1, _ :: cs => replaceScan old new k cs
  | 0, c :: cs =>
    if old.isPrefixOf (c :: cs) then
      new ++ replaceScan old new (old.length - 1) cs
    else
      c :: replaceScan old new 0 cs

/-- Go `strings.ReplaceAll(s, old, new)`: every non-overlapping instance of `old`,
found left to right, is replaced by `new`.  An empty `old` matches at the beginning
of the string and after each character. -/
def ReplaceAll (s old new : Str) : Str :=
  if old = [] then new ++ s.flatMap (fun c => c :: new) else replaceScan old new 0 s

/-! ## The two helpers of `main.go` -/

/-- Source: `GetPortFromPublicAddr` (main.go 81-87).  The error is its message,
`fmt.Errorf("invalid PublicAddr format: %s", publicAddr)`. -/
def GetPortFromPublicAddr (publicAddr : Str) : Except Str Str :=
  let parts := Split publicAddr ":".toList
  if h : parts.length < 2 then
    .error ("invalid PublicAddr format: ".toList ++ publicAddr)
  else
    .ok (parts.get ⟨parts.length - 1, by omega⟩)

/-- The `net/url` package as far as `GenerateTargetURL` uses it: `url.Parse`, whose
error is kept as its message, and `(*URL).String`. -/
structure URLPackage where
  URL : Type
  Parse : Str → Except Str URL
  String : URL → Str

/-- Source: the first statement of `GenerateTargetURL` (main.go 91), the string
`newURL` that is handed to `url.Parse`. -/
def newURL (templateURL port : Str) : Str :=
  ReplaceAll templateURL "port".toList port

/-- Source: `GenerateTargetURL` (main.go 89-98).  The error is its message,
`fmt.Errorf("invalid target URL: %w", err)`. -/
def GenerateTargetURL (url : URLPackage) (templateURL port : Str) : Except Str Str :=
  match url.Parse (newURL templateURL port) with
  | .error err => .error ("invalid target URL: ".toList ++ err)
  | .ok parsedURL => .ok (url.String parsedURL)

/-! ## Data model (main.go 12-79)

Fields absent from a decoded document keep Go's zero value, which is the default
of each field here. -/

/-- Source: `type AddrRecord` (main.go 45-48). -/
structure AddrRecord where
  AddrRecord : Str := []
  UpdateTime : Str := []
  deriving DecidableEq

/-- Source: `type Options` (main.go 50-72). -/
structure Options where
  SingleProxyMaxTCPConnections : Int := 0
  SingleProxyMaxUDPReadTargetDatagoroutineCount : Int := 0
  UDPSessionTimeout : Int := 0
  SafeMode : Str := []
  TCPListenTLS : Bool := false
  TCPRelayTLS : Bool := false
  TCPRelayTLSServerName : Str := []
  TCPRelayTLSInsecureSkipVerify : Bool := false
  TCPStreamEncryptionSource : Bool := false
  TCPStreamEncryptionAccept : Bool := false
  TCPStreamEncryptionKey : Str := []
  SinglePortSpeedLimit : Bool := false
  SinglePortSendSpeedLimit : Int := 0
  SinglePortReceSpeedLimit : Int := 0
  RuleSpeedLimit : Bool := false
  RuleSendSpeedLimit : Int := 0
  RuleReceSpeedLimit : Int := 0
  UDPPacketSize : Int := 0
  UDPPacketSourceEncryption : Bool := false
  UDPPacketAcceptEncryption : Bool := false
  UDPPacketEncryptionKey : Str := []
  deriving DecidableEq

/-- Source: `type Statistics` (main.go 74-79). -/
structure Statistics where
  TrafficIn : Int := 0
  TrafficOut : Int := 0
  TCPCurrentConnections : Int := 0
  UDPCurrentConnections : Int := 0
  deriving DecidableEq

/-- Source: `type StunNode` (main.go 19-43). -/
structure StunNode where
  Key : Str := []
  Name : Str := []
  StunType : Str := []
  Enable : Bool := false
  DisablePortForward : Bool := false
  LastLogs : Str := []
  StunLocalAddr : Str := []
  TargetAddrList : List Str := []
  PublicAddr : Str := []
  PublicAddrInfo : Str := []
  PublicAddrHistroy : List AddrRecord := []
  WebhookEnable : Bool := false
  WebhookProxy : Str := []
  WebhookCallTime : Str := []
  WebhookCallResult : Bool := false
  WebhookCallErrorMsg : Str := []
  WebhookCallHistroy : List Str := []
  GlobalWebhook : Bool := false
  GlobalWebhookCallTime : Str := []
  GlobalWebhookCallResult : Bool := false
  GlobalWebhookCallErrorMsg : Str := []
  GlobalWebhookCallHistroy : List Str := []
  Options : Options := {}
  deriving DecidableEq

/-- A Go `map[string]Statistics`, kept as its list of entries. -/
abbrev StatisticsMap := List (Str × Statistics)

/-- Source: `type Response` (main.go 12-17). -/
structure Response where
  ModuleEnable : Bool := false
  List : List StunNode := []
  Ret : Int := 0
  Statistics : StatisticsMap := []
  deriving DecidableEq

/-! ## `main` -/

/-- What `main` reads of an `*http.Response`: the status code and the body. -/
structure HttpResponse where
  StatusCode : Int
  Body : Str

/-- The surroundings of one run.  `httpGet n u` is what the call `http.Get(u)`
returns when `n` calls were made before it (an error is kept as its message);
`jsonDecode` is `json.NewDecoder(body).Decode(&response)`; `url` is `net/url`. -/
structure Env : Type 1 where
  httpGet : Nat → Str → Except Str HttpResponse
  jsonDecode : Str → Except Str Response
  url : URLPackage

/-- What a run does that can be observed from outside. -/
inductive Event where
  | stdout (text : Str)
  | get (url : Str)
  deriving DecidableEq

/-- A finished run: its events in order, and the exit code of the process. -/
structure Outcome where
  events : List Event
  exitCode : Nat
  deriving DecidableEq

/-- The `%d` verb of `fmt` for a Go `int`. -/
def fmtInt (n : Int) : Str := (toString n).toList

/-- Source: the lookup loop of `main` (main.go 131-137): the first node of the
list whose `Name` is `name`, `none` standing for the nil `targetNode`. -/
def findNode : List StunNode → Str → Option StunNode
  | [], _ => none
  | node :: rest, name => if node.Name = name then some node else findNode rest name

/-- Source: `main` (main.go 100-171); `Args` is `os.Args`.  A call of `os.Exit(1)`
ends the run with exit code 1, returning from `main` ends it with exit code 0. -/
def main (env : Env) (Args : List Str) : Outcome :=
  match Args with
  | [_, name, firstURL, thirdURLTemplate] =>
    match env.httpGet 0 firstURL with
    | .error err =>
      ⟨[.get firstURL,
        .stdout ("Failed to send first request: ".toList ++ err ++ "\n".toList)], 1⟩
    | .ok firstResp =>
      if firstResp.StatusCode ≠ 200 then
        ⟨[.get firstURL,
          .stdout ("First request failed with status code: ".toList
            ++ fmtInt firstResp.StatusCode ++ "\n".toList)], 1⟩
      else
        match env.jsonDecode firstResp.Body with
        | .error err =>
          ⟨[.get firstURL,
            .stdout ("Failed to parse JSON response: ".toList ++ err ++ "\n".toList)], 1⟩
        | .ok response =>
          match findNode response.List name with
          | none =>
            ⟨[.get firstURL,
              .stdout ("No node found with Name \x27".toList ++ name
                ++ "\x27 in first response\n".toList)], 1⟩
          | some targetNode =>
            match GetPortFromPublicAddr targetNode.PublicAddr with
            | .error err =>
              ⟨[.get firstURL,
                .stdout ("Failed to extract port from PublicAddr: ".toList ++ err
                  ++ "\n".toList)], 1⟩
            | .ok port =>
              let portLine : Event :=
                .stdout ("Port from PublicAddr (".toList ++ name ++ "): ".toList ++ port
                  ++ "\n".toList)
              match GenerateTargetURL env.url thirdURLTemplate port with
              | .error err =>
                ⟨[.get firstURL, portLine,
                  .stdout ("Failed to generate target URL: ".toList ++ err
                    ++ "\n".toList)], 1⟩
              | .ok targetURL =>
                let urlLine : Event :=
                  .stdout ("Generated third URL: ".toList ++ targetURL ++ "\n".toList)
                match env.httpGet 1 targetURL with
                | .error err =>
                  ⟨[.get firstURL, portLine, urlLine, .get targetURL,
                    .stdout ("Failed to send third request to ".toList ++ targetURL
                      ++ ": ".toList ++ err ++ "\n".toList)], 1⟩
                | .ok thirdResp =>
                  ⟨[.get firstURL, portLine, urlLine, .get targetURL,
                    .stdout ("Third request status code: ".toList
                      ++ fmtInt thirdResp.StatusCode ++ "\n".toList)], 0⟩
  | _ =>
    ⟨[.stdout "Usage: go run main.go <Name> <First URL> <Third URL Template>\n".toList], 1⟩

/-- The URLs of the `http.Get` calls of a run, in order. -/
def requests : List Event → List Str
  | [] => []
  | .get u :: rest => u :: requests rest
  | .stdout _ :: rest => requests rest

/-! ## Concrete surroundings, used to run the model on examples -/

/-- A small stand-in for `net/url`: like `url.Parse` it rejects a string with an
ASCII control character, and it keeps every other string as it is written. -/
def verbatimURL : URLPackage where
  URL := Str
  Parse := fun s =>
    if s.any (fun c => c.val < 32 || c.val == 127) then
      .error "net/url: invalid control character in URL".toList
    else .ok s
  String := fun u => u

/-- Surroundings with fixed answers: `first` for the first call of `http.Get`,
`second` for every later one, and `doc` for the decoding of any body. -/
def scriptedEnv (first second : Except Str HttpResponse) (doc : Except Str Response) : Env where
  httpGet := fun n _ => if n = 0 then first else second
  jsonDecode := fun _ => doc
  url := verbatimURL

/-- The node list of the end-to-end scenario: one node `node-a` at `10.0.0.1:4500`. -/
def scenarioResponse : Response :=
  { List := [{ Name := "node-a".toList, PublicAddr := "10.0.0.1:4500".toList }] }

/-- A node list whose first `node-a` has an empty address and whose second
`node-a` has a well-formed one. -/
def duplicateResponse : Response :=
  { List := [{ Name := "node-b".toList, PublicAddr := "10.0.0.9:9".toList },
             { Name := "node-a".toList },
             { Name := "node-a".toList, PublicAddr := "10.0.0.1:4500".toList }] }

/-- The command line of the end-to-end scenario. -/
def scenarioArgs : List Str :=
  ["getluckystunport".toList, "node-a".toList, "http://lucky.example/api".toList,
   "http://backend:port/health".toList]

end GetLuckyStunPort

namespace GetLuckyStunPort

/-! ## Splitting at `":"` -/

theorem splitScan_colon_cons (c : Char) (cs : Str) :
    splitScan [':'] 0 (c :: cs) =
      if c = ':' then [] :: splitScan [':'] 0 cs
      else match splitScan [':'] 0 cs with
        | [] => [[c]]
        | seg :: segs => (c :: seg) :: segs := by
  by_cases h : c = ':'
  · subst h; simp [splitScan, List.isPrefixOf]
  · have h' : ¬ ':' = c := fun e => h e.symm
    simp [splitScan, List.isPrefixOf, h, h']

/-- What `strings.Split(s, ":")` returns: `[s]` when `s` has no colon, and otherwise
at least two segments, the last of which is the colon-free text after the last
colon of `s`. -/
theorem splitScan_colon (s : Str) :
    (':' ∉ s → splitScan [':'] 0 s = [s]) ∧
    (':' ∈ s → ∃ pre port segs, splitScan [':'] 0 s = segs ++ [port] ∧ segs ≠ [] ∧
      s = pre ++ ':' :: port ∧ ':' ∉ port) := by
  induction s with
  | nil => simp [splitScan]
  | cons c cs ih =>
    obtain ⟨ih0, ih1⟩ := ih
    rw [splitScan_colon_cons]
    by_cases hc : c = ':'
    · subst hc
      refine ⟨fun h => absurd (List.mem_cons_self _ _) h, fun _ => ?_⟩
      by_cases hcs : ':' ∈ cs
      · obtain ⟨pre, port, segs, h1, _, h3, h4⟩ := ih1 hcs
        refine ⟨':' :: pre, port, [] :: segs, ?_, by simp, ?_, h4⟩
        · simp [h1]
        · simp [h3]
      · exact ⟨[], cs, [[]], by simp [ih0 hcs], by simp, by simp, hcs⟩
    · have hc' : ¬ ':' = c := fun h => hc h.symm
      refine ⟨fun h => ?_, fun h => ?_⟩
      · have hcs : ':' ∉ cs := fun h' => h (List.mem_cons_of_mem _ h')
        simp [hc, ih0 hcs]
      · have hcs : ':' ∈ cs := by
          rcases List.mem_cons.mp h with h' | h'
          · exact absurd h' hc'
          · exact h'
        obtain ⟨pre, port, segs, h1, h2, h3, h4⟩ := ih1 hcs
        cases segs with
        | nil => exact absurd rfl h2
        | cons g gs =>
          refine ⟨c :: pre, port, (c :: g) :: gs, ?_, by simp, ?_, h4⟩
          · simp [hc, h1]
          · simp [h3]

theorem Split_colon (s : Str) : Split s ":".toList = splitScan [':'] 0 s := by
  simp [Split]

theorem GetPortFromPublicAddr_of_colon (s : Str) (h : ':' ∈ s) :
    ∃ pre port, GetPortFromPublicAddr s = .ok port ∧ s = pre ++ ':' :: port ∧ ':' ∉ port := by
  obtain ⟨pre, port, segs, h1, h2, h3, h4⟩ := (splitScan_colon s).2 h
  refine ⟨pre, port, ?_, h3, h4⟩
  have hlen : ¬ (Split s ":".toList).length < 2 := by
    rw [Split_colon, h1]
    cases segs with
    | nil => exact absurd rfl h2
    | cons g gs => simp
  unfold GetPortFromPublicAddr
  simp only [hlen, dite_false]
  congr 1
  simp only [List.get_eq_getElem, Split_colon, h1]
  simp

theorem GetPortFromPublicAddr_of_no_colon (s : Str) (h : ':' ∉ s) :
    GetPortFromPublicAddr s = .error ("invalid PublicAddr format: ".toList ++ s) := by
  have hlen : (Split s ":".toList).length < 2 := by
    rw [Split_colon, (splitScan_colon s).1 h]; simp
  unfold GetPortFromPublicAddr
  simp only [hlen, dite_true]

/-- Claim C1: for an address with at least one colon `GetPortFromPublicAddr` succeeds
with the text after the last colon: the address is `pre ++ ":" ++ port` and `port`
has no colon.  Nothing checks that the port is numeric or non-empty:
`"203.0.113.5:51413"` gives `"51413"`, `"2001:db8::1:9999"` gives `"9999"` and
`"host:"` gives the empty string. -/
theorem GetPortFromPublicAddr_last_segment :
    (∀ publicAddr : Str, ':' ∈ publicAddr →
      ∃ pre port, GetPortFromPublicAddr publicAddr = .ok port ∧
        publicAddr = pre ++ ":".toList ++ port ∧ ':' ∉ port) ∧
    GetPortFromPublicAddr "203.0.113.5:51413".toList = .ok "51413".toList ∧
    GetPortFromPublicAddr "2001:db8::1:9999".toList = .ok "9999".toList ∧
    GetPortFromPublicAddr "host:".toList = .ok "".toList := by
  refine ⟨fun s h => ?_, by rfl, by rfl, by rfl⟩
  obtain ⟨pre, port, h1, h2, h3⟩ := GetPortFromPublicAddr_of_colon s h
  exact ⟨pre, port, h1, by simpa using h2, h3⟩

theorem GetPortFromPublicAddr_last_segment_witness :
    ':' ∈ "10.0.0.1:4500".toList ∧
    ∃ pre port, GetPortFromPublicAddr "10.0.0.1:4500".toList = .ok port ∧
      "10.0.0.1:4500".toList = pre ++ ":".toList ++ port ∧ ':' ∉ port :=
  ⟨by decide, GetPortFromPublicAddr_last_segment.1 "10.0.0.1:4500".toList (by decide)⟩

/-- Claim C2: `GetPortFromPublicAddr` fails exactly when the address has no colon
(so `"noaddresshere"` and the empty string fail), and the message of every failure
contains the address it was given. -/
theorem GetPortFromPublicAddr_fails_iff_no_colon :
    (∀ publicAddr : Str,
      ((∃ msg, GetPortFromPublicAddr publicAddr = .error msg) ↔ ':' ∉ publicAddr) ∧
      (∀ msg, GetPortFromPublicAddr publicAddr = .error msg → publicAddr <:+: msg)) ∧
    (∃ msg, GetPortFromPublicAddr "noaddresshere".toList = .error msg) ∧
    (∃ msg, GetPortFromPublicAddr "".toList = .error msg) := by
  refine ⟨fun s => ⟨⟨fun ⟨msg, hmsg⟩ hin => ?_, fun h => ⟨_, GetPortFromPublicAddr_of_no_colon s h⟩⟩,
    fun msg hmsg => ?_⟩, ⟨_, by rfl⟩, ⟨_, by rfl⟩⟩
  · obtain ⟨_, port, h1, _, _⟩ := GetPortFromPublicAddr_of_colon s hin
    rw [h1] at hmsg
    cases hmsg
  · by_cases hin : ':' ∈ s
    · obtain ⟨_, port, h1, _, _⟩ := GetPortFromPublicAddr_of_colon s hin
      rw [h1] at hmsg
      cases hmsg
    · rw [GetPortFromPublicAddr_of_no_colon s hin] at hmsg
      cases hmsg
      exact ⟨"invalid PublicAddr format: ".toList, [], by simp⟩

theorem GetPortFromPublicAddr_fails_iff_no_colon_witness :
    GetPortFromPublicAddr "no colon".toList =
        .error "invalid PublicAddr format: no colon".toList ∧
      "no colon".toList <:+: "invalid PublicAddr format: no colon".toList :=
  ⟨by rfl, (GetPortFromPublicAddr_fails_iff_no_colon.1 "no colon".toList).2
    "invalid PublicAddr format: no colon".toList (by rfl)⟩

/-! ## Replacing the token `"port"` -/

theorem intercalate_singleton (sep seg : Str) : List.intercalate sep [seg] = seg := by
  simp [List.intercalate]

theorem intercalate_cons_cons (sep seg seg2 : Str) (segs : List Str) :
    List.intercalate sep (seg :: seg2 :: segs) =
      seg ++ sep ++ List.intercalate sep (seg2 :: segs) := by
  simp [List.intercalate]

theorem intercalate_cons_head (sep : Str) (c : Char) (seg : Str) (segs : List Str) :
    List.intercalate sep ((c :: seg) :: segs) = c :: List.intercalate sep (seg :: segs) := by
  cases segs with
  | nil => simp [intercalate_singleton]
  | cons g gs => simp [intercalate_cons_cons]

theorem prefix_intercalate_cons (sep seg : Str) (segs : List Str) :
    seg <+: List.intercalate sep (seg :: segs) := by
  cases segs with
  | nil => simp [intercalate_singleton]
  | cons g gs =>
    rw [intercalate_cons_cons, List.append_assoc]
    exact List.prefix_append _ _

/-- The scan of `ReplaceAll` cuts its input at the occurrences of `old`: what is
left of the input is the segments joined by `old`, the output is the same segments
joined by `new`, and no segment contains `old`. -/
theorem replaceScan_segments (old new : Str) (hold : old ≠ []) (s : Str) :
    ∀ k, ∃ segs : List Str, segs ≠ [] ∧ s.drop k = List.intercalate old segs ∧
      (∀ seg ∈ segs, ¬ old <:+: seg) ∧
      replaceScan old new k s = List.intercalate new segs := by
  have hnil : ¬ old <:+: [] := by
    intro h
    exact hold (List.infix_nil.mp h)
  induction s with
  | nil =>
    intro k
    refine ⟨[[]], by simp, by simp [intercalate_singleton], ?_, ?_⟩
    · intro seg hseg
      rw [List.mem_singleton.mp hseg]
      exact hnil
    · cases k <;> simp [replaceScan, intercalate_singleton]
  | cons c cs ih =>
    intro k
    cases k with
    | succ k =>
      obtain ⟨segs, h0, h1, h2, h3⟩ := ih k
      exact ⟨segs, h0, by simpa using h1, h2, by simpa [replaceScan] using h3⟩
    | zero =>
      by_cases hp : old.isPrefixOf (c :: cs) = true
      · obtain ⟨segs, h0, h1, h2, h3⟩ := ih (old.length - 1)
        obtain ⟨t, ht⟩ := List.isPrefixOf_iff_prefix.mp hp
        cases hsegs : segs with
        | nil => exact absurd hsegs h0
        | cons g gs =>
          subst hsegs
          refine ⟨[] :: g :: gs, by simp, ?_, ?_, ?_⟩
          · rw [intercalate_cons_cons, ← h1]
            cases hold' : old with
            | nil => exact absurd hold' hold
            | cons o os =>
              rw [hold'] at ht
              simp only [List.cons_append, List.cons.injEq] at ht
              simp [← ht.2, ← ht.1]
          · intro seg hseg
            rcases List.mem_cons.mp hseg with h | h
            · rw [h]; exact hnil
            · exact h2 seg h
          · simp [replaceScan, hp, h3, intercalate_cons_cons]
      · obtain ⟨segs, h0, h1, h2, h3⟩ := ih 0
        cases hsegs : segs with
        | nil => exact absurd hsegs h0
        | cons g gs =>
          subst hsegs
          simp only [List.drop_zero] at h1
          refine ⟨(c :: g) :: gs, by simp, ?_, ?_, ?_⟩
          · simp [intercalate_cons_head, ← h1]
          · intro seg hseg
            rcases List.mem_cons.mp hseg with h | h
            · rw [h]
              intro hin
              rcases List.infix_cons_iff.mp hin with h' | h'
              · apply hp
                apply List.isPrefixOf_iff_prefix.mpr
                have := List.prefix_cons_inj c |>.mpr (prefix_intercalate_cons old g gs)
                rw [← h1] at this
                exact h'.trans this
              · exact h2 g (List.mem_cons_self _ _) h'
            · exact h2 seg (List.mem_cons_of_mem _ h)
          · simp [replaceScan, hp, h3, intercalate_cons_head]

theorem replaceScan_of_not_infix (old new : Str) (s : Str) (h : ¬ old <:+: s) :
    replaceScan old new 0 s = s := by
  induction s with
  | nil => simp [replaceScan]
  | cons c cs ih =>
    have hp : ¬ old.isPrefixOf (c :: cs) = true := fun hp =>
      h (List.isPrefixOf_iff_prefix.mp hp).isInfix
    have hcs : ¬ old <:+: cs := fun hcs => h (List.infix_cons hcs)
    simp [replaceScan, hp, ih hcs]

/-- A segment free of `"port"` in front of an occurrence of `"port"` is copied, and
the occurrence is replaced: the scan cannot find the token earlier, since no end of
`"port"` is also a beginning of it. -/
theorem replaceScan_segment_port (new seg rest : Str) (h : ¬ "port".toList <:+: seg) :
    replaceScan "port".toList new 0 (seg ++ "port".toList ++ rest) =
      seg ++ new ++ replaceScan "port".toList new 0 rest := by
  induction seg with
  | nil => simp [replaceScan, List.isPrefixOf]
  | cons c seg ih =>
    have hseg : ¬ "port".toList <:+: seg := fun hs => h (List.infix_cons hs)
    have hp : ¬ List.isPrefixOf "port".toList (c :: (seg ++ "port".toList ++ rest)) = true := by
      intro hp
      rcases seg with _ | ⟨a, _ | ⟨b, _ | ⟨d, seg⟩⟩⟩
      · simp [List.isPrefixOf] at hp
      · simp [List.isPrefixOf] at hp
      · simp [List.isPrefixOf] at hp
      · apply h
        simp only [String.toList, List.isPrefixOf, List.cons_append, Bool.and_eq_true,
          beq_iff_eq] at hp
        obtain ⟨h1, h2, h3, h4, _⟩ := hp
        rw [← h1, ← h2, ← h3, ← h4]
        exact ⟨[], seg, rfl⟩
    have hstep : replaceScan "port".toList new 0 (c :: (seg ++ "port".toList ++ rest)) =
        c :: replaceScan "port".toList new 0 (seg ++ "port".toList ++ rest) := by
      simp only [replaceScan, hp]
      rfl
    rw [List.cons_append, List.cons_append, hstep, ih hseg]
    simp

/-- The scan on segments free of `"port"` joined by `"port"` gives the same segments
joined by the replacement. -/
theorem replaceScan_intercalate_port (new : Str) (segs : List Str)
    (h : ∀ seg ∈ segs, ¬ "port".toList <:+: seg) :
    replaceScan "port".toList new 0 (List.intercalate "port".toList segs) =
      List.intercalate new segs := by
  induction segs with
  | nil => simp [List.intercalate, replaceScan]
  | cons seg segs ih =>
    cases segs with
    | nil =>
      rw [intercalate_singleton, intercalate_singleton]
      exact replaceScan_of_not_infix _ _ _ (h seg (List.mem_cons_self _ _))
    | cons g gs =>
      rw [intercalate_cons_cons, intercalate_cons_cons,
        replaceScan_segment_port new seg _ (h seg (List.mem_cons_self _ _)),
        ih (fun x hx => h x (List.mem_cons_of_mem _ hx))]

theorem newURL_eq (templateURL port : Str) :
    newURL templateURL port = replaceScan "port".toList port 0 templateURL := by
  simp [newURL, ReplaceAll]

/-- Claim C3: the string handed to the URL parser is the template with every
occurrence of the token `"port"` replaced by the port value and all other text
kept in order.  Every template is a list of segments that do not contain `"port"`,
joined by `"port"`; and whenever a template is written so, the substituted string is
the same segments joined by the port value.  Occurrences inside other words are
replaced too (`"http://portal.example.com:port/"` with `"80"` gives
`"http://80al.example.com:80/"`), and a template without `"port"` is unchanged. -/
theorem newURL_replaces_every_port :
    (∀ templateURL port : Str, ∃ segs : List Str,
      templateURL = List.intercalate "port".toList segs ∧
      (∀ seg ∈ segs, ¬ "port".toList <:+: seg) ∧
      newURL templateURL port = List.intercalate port segs) ∧
    (∀ (segs : List Str) (port : Str), (∀ seg ∈ segs, ¬ "port".toList <:+: seg) →
      newURL (List.intercalate "port".toList segs) port = List.intercalate port segs) ∧
    newURL "http://portal.example.com:port/".toList "80".toList =
      "http://80al.example.com:80/".toList ∧
    (∀ templateURL port : Str, ¬ "port".toList <:+: templateURL →
      newURL templateURL port = templateURL) := by
  refine ⟨fun t p => ?_, fun segs p h => ?_, by rfl, fun t p h => ?_⟩
  · obtain ⟨segs, _, h1, h2, h3⟩ := replaceScan_segments "port".toList p (by simp) t 0
    exact ⟨segs, by simpa using h1, h2, by rw [newURL_eq]; exact h3⟩
  · rw [newURL_eq]
    exact replaceScan_intercalate_port p segs h
  · rw [newURL_eq]
    exact replaceScan_of_not_infix _ _ _ h

theorem newURL_replaces_every_port_witness :
    newURL (List.intercalate "port".toList ["http://".toList, "al.example.com:".toList,
        "/po/rt".toList]) "51413".toList =
      "http://51413al.example.com:51413/po/rt".toList ∧
    newURL "http://a/b".toList "51413".toList = "http://a/b".toList :=
  ⟨newURL_replaces_every_port.2.1
      ["http://".toList, "al.example.com:".toList, "/po/rt".toList] "51413".toList
      (by decide),
    newURL_replaces_every_port.2.2.2 "http://a/b".toList "51413".toList (by decide)⟩

/-! ## No token is left when the port is a number -/

/-- Text without digits at the head of the output of the scan was copied from the
head of the input, when the replacement starts with a digit. -/
theorem prefix_of_prefix_replaceScan (old new : Str) (hne : new ≠ [])
    (hnew : ∀ ch ∈ new, ch.isDigit = true) (w : Str) (hw : ∀ ch ∈ w, ch.isDigit = false) :
    ∀ s : Str, w <+: replaceScan old new 0 s → w <+: s := by
  induction w with
  | nil => intro s _; exact List.nil_prefix
  | cons a w ih =>
    intro s h
    have ha : a.isDigit = false := hw a (List.mem_cons_self _ _)
    have hw' : ∀ ch ∈ w, ch.isDigit = false := fun ch hch => hw ch (List.mem_cons_of_mem _ hch)
    cases s with
    | nil => simp [replaceScan] at h
    | cons c cs =>
      by_cases hp : old.isPrefixOf (c :: cs) = true
      · cases hn : new with
        | nil => exact absurd hn hne
        | cons d ds =>
          have hd : d.isDigit = true := hnew d (by rw [hn]; exact List.mem_cons_self _ _)
          simp only [replaceScan, hp, if_true, hn, List.cons_append] at h
          have := (List.cons_prefix_cons.mp h).1
          rw [this, hd] at ha
          cases ha
      · simp only [replaceScan, hp] at h
        obtain ⟨h1, h2⟩ := List.cons_prefix_cons.mp h
        exact List.cons_prefix_cons.mpr ⟨h1, ih hw' cs h2⟩

theorem not_infix_digits_append (old : Str) (hne : old ≠ [])
    (hold : ∀ ch ∈ old, ch.isDigit = false) (a b : Str)
    (ha : ∀ ch ∈ a, ch.isDigit = true) (hb : ¬ old <:+: b) : ¬ old <:+: a ++ b := by
  induction a with
  | nil => simpa using hb
  | cons d a ih =>
    intro h
    rcases List.infix_cons_iff.mp h with h' | h'
    · cases ho : old with
      | nil => exact absurd ho hne
      | cons o os =>
        rw [ho] at h'
        have hod : o = d := (List.cons_prefix_cons.mp h').1
        have h1 : o.isDigit = false := hold o (by rw [ho]; exact List.mem_cons_self _ _)
        have h2 : d.isDigit = true := ha d (List.mem_cons_self _ _)
        rw [hod, h2] at h1
        cases h1
    · exact ih (fun ch hch => ha ch (List.mem_cons_of_mem _ hch)) h'

/-- With a token free of digits and a non-empty replacement made of digits, the
output of the scan contains no occurrence of the token. -/
theorem not_infix_replaceScan (old new : Str) (hold : ∀ ch ∈ old, ch.isDigit = false)
    (ho : old ≠ []) (hne : new ≠ []) (hnew : ∀ ch ∈ new, ch.isDigit = true) (s : Str) :
    ∀ k, ¬ old <:+: replaceScan old new k s := by
  induction s with
  | nil =>
    intro k h
    have : replaceScan old new k [] = [] := by cases k <;> rfl
    rw [this] at h
    exact ho (List.infix_nil.mp h)
  | cons c cs ih =>
    intro k
    cases k with
    | succ k => simpa [replaceScan] using ih k
    | zero =>
      by_cases hp : old.isPrefixOf (c :: cs) = true
      · simp only [replaceScan, hp, if_true]
        exact not_infix_digits_append old ho hold new _ hnew (ih _)
      · simp only [replaceScan, hp]
        intro h
        rcases List.infix_cons_iff.mp h with h' | h'
        · apply hp
          apply List.isPrefixOf_iff_prefix.mpr
          cases hold' : old with
          | nil => exact absurd hold' ho
          | cons o os =>
            rw [hold'] at h'
            obtain ⟨h1, h2⟩ := List.cons_prefix_cons.mp h'
            have hos : ∀ ch ∈ os, ch.isDigit = false := fun ch hch =>
              hold ch (by rw [hold']; exact List.mem_cons_of_mem _ hch)
            exact List.cons_prefix_cons.mpr
              ⟨h1, prefix_of_prefix_replaceScan (o :: os) new hne hnew os hos cs h2⟩
        · exact ih 0 h'

/-- Claim C9: for a non-empty port value made of decimal digits the string that
`GenerateTargetURL` parses contains no occurrence of `"port"`.  The condition on
the port is needed: with an empty port `"poportrt"` becomes `"port"`. -/
theorem newURL_has_no_port_token :
    (∀ templateURL port : Str, port ≠ [] → (∀ ch ∈ port, ch.isDigit = true) →
      ¬ "port".toList <:+: newURL templateURL port) ∧
    newURL "poportrt".toList "".toList = "port".toList := by
  refine ⟨fun t p hne hd => ?_, by rfl⟩
  rw [newURL_eq]
  exact not_infix_replaceScan "port".toList p (by decide) (by simp) hne hd t 0

theorem newURL_has_no_port_token_witness :
    ¬ "port".toList <:+: newURL "http://portal.example.com:port/report".toList "80".toList :=
  newURL_has_no_port_token.1 "http://portal.example.com:port/report".toList "80".toList
    (by decide) (by decide)

/-! ## `GenerateTargetURL` -/

/-- Claim C4: `GenerateTargetURL` fails exactly when `url.Parse` fails on the
substituted string, and otherwise returns the string form of the parsed URL.  For
the template `"http://example.com:port/status"` and the port `"9999"` the parsed
string is `"http://example.com:9999/status"`, which is also the result as soon as
the URL package prints that URL back as it was written. -/
theorem GenerateTargetURL_follows_parse :
    (∀ (url : URLPackage) (templateURL port : Str),
      ((∃ msg, GenerateTargetURL url templateURL port = .error msg) ↔
        ∃ err, url.Parse (newURL templateURL port) = .error err) ∧
      (∀ err, url.Parse (newURL templateURL port) = .error err →
        GenerateTargetURL url templateURL port =
          .error ("invalid target URL: ".toList ++ err)) ∧
      (∀ parsedURL, url.Parse (newURL templateURL port) = .ok parsedURL →
        GenerateTargetURL url templateURL port = .ok (url.String parsedURL))) ∧
    newURL "http://example.com:port/status".toList "9999".toList =
      "http://example.com:9999/status".toList ∧
    (∀ (url : URLPackage) (parsedURL : url.URL),
      url.Parse "http://example.com:9999/status".toList = .ok parsedURL →
      url.String parsedURL = "http://example.com:9999/status".toList →
      GenerateTargetURL url "http://example.com:port/status".toList "9999".toList =
        .ok "http://example.com:9999/status".toList) := by
  have hex : newURL "http://example.com:port/status".toList "9999".toList =
      "http://example.com:9999/status".toList := by rfl
  refine ⟨fun url t p => ⟨⟨?_, ?_⟩, ?_, ?_⟩, hex, ?_⟩
  · rintro ⟨msg, hmsg⟩
    unfold GenerateTargetURL at hmsg
    cases hparse : url.Parse (newURL t p) with
    | error err => exact ⟨err, rfl⟩
    | ok u => rw [hparse] at hmsg; cases hmsg
  · rintro ⟨err, herr⟩
    exact ⟨"invalid target URL: ".toList ++ err, by simp only [GenerateTargetURL, herr]⟩
  · intro err herr
    simp only [GenerateTargetURL, herr]
  · intro u hu
    simp only [GenerateTargetURL, hu]
  · intro url u hu hs
    simp only [GenerateTargetURL, hex, hu, hs]

theorem GenerateTargetURL_follows_parse_witness :
    GenerateTargetURL verbatimURL "http://example.com:port/status".toList "9999".toList =
      .ok "http://example.com:9999/status".toList :=
  GenerateTargetURL_follows_parse.2.2 verbatimURL "http://example.com:9999/status".toList
    (by rfl) (by rfl)

/-! ## The lookup of `main` -/

theorem findNode_eq_some_iff (nodes : List StunNode) (name : Str) (node : StunNode) :
    findNode nodes name = some node ↔
      ∃ pre post, nodes = pre ++ node :: post ∧ node.Name = name ∧
        ∀ m ∈ pre, m.Name ≠ name := by
  induction nodes with
  | nil => simp [findNode]
  | cons n rest ih =>
    by_cases hn : n.Name = name
    · simp only [findNode, hn, if_true, Option.some.injEq]
      constructor
      · intro h
        subst h
        exact ⟨[], rest, rfl, hn, by simp⟩
      · rintro ⟨pre, post, h1, h2, h3⟩
        cases pre with
        | nil => simp at h1; exact h1.1
        | cons p ps =>
          simp only [List.cons_append, List.cons.injEq] at h1
          exact absurd hn (h1.1 ▸ h3 p (List.mem_cons_self _ _))
    · simp only [findNode, hn, if_false, ih]
      constructor
      · rintro ⟨pre, post, h1, h2, h3⟩
        refine ⟨n :: pre, post, by simp [h1], h2, ?_⟩
        intro m hm
        rcases List.mem_cons.mp hm with h | h
        · rw [h]; exact hn
        · exact h3 m h
      · rintro ⟨pre, post, h1, h2, h3⟩
        cases pre with
        | nil =>
          simp only [List.nil_append, List.cons.injEq] at h1
          exact absurd (h1.1 ▸ h2) hn
        | cons p ps =>
          simp only [List.cons_append, List.cons.injEq] at h1
          exact ⟨ps, post, h1.2, h2, fun m hm => h3 m (List.mem_cons_of_mem _ hm)⟩

theorem findNode_eq_none_iff (nodes : List StunNode) (name : Str) :
    findNode nodes name = none ↔ ∀ m ∈ nodes, m.Name ≠ name := by
  induction nodes with
  | nil => simp [findNode]
  | cons n rest ih =>
    by_cases hn : n.Name = name
    · simp [findNode, hn]
    · simp [findNode, hn, ih]

/-- Claim C5: the lookup of `main` selects the first node, in list order, whose
`Name` is equal to the requested name, whatever follows it in the list, and
selects nothing when the list is empty or no `Name` is equal to the requested
name.  Equality is exact: a name in another case or with a blank around it does
not match. -/
theorem findNode_first_match :
    (∀ (nodes : List StunNode) (name : Str),
      (∀ node, findNode nodes name = some node ↔
        ∃ pre post, nodes = pre ++ node :: post ∧ node.Name = name ∧
          ∀ m ∈ pre, m.Name ≠ name) ∧
      (findNode nodes name = none ↔ ∀ m ∈ nodes, m.Name ≠ name)) ∧
    (∀ name : Str, findNode [] name = none) ∧
    findNode
        [{ Name := "Node-a".toList, PublicAddr := "10.0.0.1:1".toList },
         { Name := " node-a".toList, PublicAddr := "10.0.0.2:2".toList },
         { Name := "node-a".toList, PublicAddr := "10.0.0.3:3".toList },
         { Name := "node-a".toList, PublicAddr := "10.0.0.4:4".toList }]
        "node-a".toList =
      some { Name := "node-a".toList, PublicAddr := "10.0.0.3:3".toList } ∧
    findNode [{ Name := "Node-a".toList }, { Name := "node-a ".toList }] "node-a".toList
      = none :=
  ⟨fun nodes name => ⟨findNode_eq_some_iff nodes name, findNode_eq_none_iff nodes name⟩,
    fun _ => rfl, by decide, by decide⟩

theorem findNode_first_match_witness :
    findNode [{ Name := "b".toList }, { Name := "a".toList, Key := "1".toList },
        { Name := "a".toList, Key := "2".toList }] "a".toList =
      some { Name := "a".toList, Key := "1".toList } :=
  ((findNode_first_match.1 _ _).1 _).2
    ⟨[{ Name := "b".toList }], [{ Name := "a".toList, Key := "2".toList }], rfl, rfl,
      by decide⟩

/-! ## The run of `main` -/

/-- Claim C6: when the first `http.Get` returns a response whose status code is not
200, the run prints the first-request failure with that status code, ends with exit
code 1, and its only request is the first one. -/
theorem main_first_status_not_200 (env : Env) (prog name firstURL thirdURLTemplate : Str)
    (firstResp : HttpResponse) (hget : env.httpGet 0 firstURL = .ok firstResp)
    (hstatus : firstResp.StatusCode ≠ 200) :
    main env [prog, name, firstURL, thirdURLTemplate] =
      ⟨[.get firstURL,
        .stdout ("First request failed with status code: ".toList
          ++ fmtInt firstResp.StatusCode ++ "\n".toList)], 1⟩ ∧
    (main env [prog, name, firstURL, thirdURLTemplate]).exitCode = 1 ∧
    requests (main env [prog, name, firstURL, thirdURLTemplate]).events = [firstURL] := by
  have h : main env [prog, name, firstURL, thirdURLTemplate] =
      ⟨[.get firstURL,
        .stdout ("First request failed with status code: ".toList
          ++ fmtInt firstResp.StatusCode ++ "\n".toList)], 1⟩ := by
    simp only [main, hget, hstatus, ne_eq, not_false_eq_true, if_true]
  rw [h]
  exact ⟨rfl, rfl, rfl⟩

/-- The runs with two requests: every step before the second `http.Get` went
through, and the second request is for the generated URL. -/
theorem main_two_requests (env : Env) (Args : List Str) (u1 u2 : Str)
    (hreq : requests (main env Args).events = [u1, u2]) :
    ∃ prog name thirdURLTemplate firstResp response targetNode port,
      Args = [prog, name, u1, thirdURLTemplate] ∧
      env.httpGet 0 u1 = .ok firstResp ∧ firstResp.StatusCode = 200 ∧
      env.jsonDecode firstResp.Body = .ok response ∧
      findNode response.List name = some targetNode ∧
      GetPortFromPublicAddr targetNode.PublicAddr = .ok port ∧
      GenerateTargetURL env.url thirdURLTemplate port = .ok u2 := by
  unfold main at hreq
  split at hreq
  · rename_i prog name firstURL tmpl
    split at hreq
    · simp [requests] at hreq
    · rename_i firstResp h1
      split at hreq
      · simp [requests] at hreq
      · rename_i h200
        split at hreq
        · simp [requests] at hreq
        · rename_i response hdec
          split at hreq
          · simp [requests] at hreq
          · rename_i targetNode hfind
            split at hreq
            · simp [requests] at hreq
            · rename_i port hport
              split at hreq
              · simp [requests] at hreq
              · rename_i targetURL hurl
                have h200' : firstResp.StatusCode = 200 := by
                  by_contra hne
                  exact h200 hne
                split at hreq
                · simp only [requests, List.cons.injEq, and_true] at hreq
                  obtain ⟨rfl, rfl⟩ := hreq
                  exact ⟨prog, name, tmpl, firstResp, response, targetNode, port, rfl, h1,
                    h200', hdec, hfind, hport, hurl⟩
                · simp only [requests, List.cons.injEq, and_true] at hreq
                  obtain ⟨rfl, rfl⟩ := hreq
                  exact ⟨prog, name, tmpl, firstResp, response, targetNode, port, rfl, h1,
                    h200', hdec, hfind, hport, hurl⟩
  · simp [requests] at hreq

/-- The run once every step before the second `http.Get` went through. -/
theorem main_at_second_request (env : Env) (prog name firstURL thirdURLTemplate : Str)
    (firstResp : HttpResponse) (response : Response) (targetNode : StunNode)
    (port targetURL : Str)
    (hget : env.httpGet 0 firstURL = .ok firstResp) (hstatus : firstResp.StatusCode = 200)
    (hdec : env.jsonDecode firstResp.Body = .ok response)
    (hfind : findNode response.List name = some targetNode)
    (hport : GetPortFromPublicAddr targetNode.PublicAddr = .ok port)
    (hurl : GenerateTargetURL env.url thirdURLTemplate port = .ok targetURL) :
    main env [prog, name, firstURL, thirdURLTemplate] =
      match env.httpGet 1 targetURL with
      | .error err =>
        ⟨[.get firstURL,
          .stdout ("Port from PublicAddr (".toList ++ name ++ "): ".toList ++ port
            ++ "\n".toList),
          .stdout ("Generated third URL: ".toList ++ targetURL ++ "\n".toList),
          .get targetURL,
          .stdout ("Failed to send third request to ".toList ++ targetURL
            ++ ": ".toList ++ err ++ "\n".toList)], 1⟩
      | .ok thirdResp =>
        ⟨[.get firstURL,
          .stdout ("Port from PublicAddr (".toList ++ name ++ "): ".toList ++ port
            ++ "\n".toList),
          .stdout ("Generated third URL: ".toList ++ targetURL ++ "\n".toList),
          .get targetURL,
          .stdout ("Third request status code: ".toList
            ++ fmtInt thirdResp.StatusCode ++ "\n".toList)], 0⟩ := by
  simp only [main, hget, hstatus, ne_eq, not_true_eq_false, if_false, hdec, hfind, hport, hurl]

theorem requests_main_at_second_request (env : Env)
    (prog name firstURL thirdURLTemplate : Str)
    (firstResp : HttpResponse) (response : Response) (targetNode : StunNode)
    (port targetURL : Str)
    (hget : env.httpGet 0 firstURL = .ok firstResp) (hstatus : firstResp.StatusCode = 200)
    (hdec : env.jsonDecode firstResp.Body = .ok response)
    (hfind : findNode response.List name = some targetNode)
    (hport : GetPortFromPublicAddr targetNode.PublicAddr = .ok port)
    (hurl : GenerateTargetURL env.url thirdURLTemplate port = .ok targetURL) :
    requests (main env [prog, name, firstURL, thirdURLTemplate]).events =
      [firstURL, targetURL] := by
  rw [main_at_second_request env prog name firstURL thirdURLTemplate firstResp response
    targetNode port targetURL hget hstatus hdec hfind hport hurl]
  cases env.httpGet 1 targetURL <;> rfl

/-- Claim C7: in a run that makes the second `http.Get` and gets a response from it,
the last thing printed is the status code of that response and the exit code is 0,
whatever the status code is. -/
theorem main_second_status_any (env : Env) (Args : List Str) (firstURL targetURL : Str)
    (thirdResp : HttpResponse)
    (hreq : requests (main env Args).events = [firstURL, targetURL])
    (hresp : env.httpGet 1 targetURL = .ok thirdResp) :
    (main env Args).exitCode = 0 ∧
    (main env Args).events.getLast? =
      some (.stdout ("Third request status code: ".toList
        ++ fmtInt thirdResp.StatusCode ++ "\n".toList)) := by
  obtain ⟨prog, name, tmpl, firstResp, response, targetNode, port, hargs, hget, hstatus,
    hdec, hfind, hport, hurl⟩ := main_two_requests env Args firstURL targetURL hreq
  rw [hargs, main_at_second_request env prog name firstURL tmpl firstResp response
    targetNode port targetURL hget hstatus hdec hfind hport hurl, hresp]
  exact ⟨rfl, rfl⟩

theorem main_second_status_any_witness :
    (main (scriptedEnv (.ok ⟨200, []⟩) (.ok ⟨500, []⟩) (.ok scenarioResponse))
        scenarioArgs).exitCode = 0 ∧
    (main (scriptedEnv (.ok ⟨200, []⟩) (.ok ⟨500, []⟩) (.ok scenarioResponse))
        scenarioArgs).events.getLast? =
      some (.stdout "Third request status code: 500\n".toList) :=
  main_second_status_any (scriptedEnv (.ok ⟨200, []⟩) (.ok ⟨500, []⟩) (.ok scenarioResponse))
    scenarioArgs "http://lucky.example/api".toList "http://backend:4500/health".toList
    ⟨500, []⟩ (by rfl) (by rfl)

theorem main_first_status_not_200_witness :
    main (scriptedEnv (.ok ⟨503, "busy".toList⟩) (.ok ⟨200, []⟩) (.ok scenarioResponse))
        scenarioArgs =
      ⟨[.get "http://lucky.example/api".toList,
        .stdout "First request failed with status code: 503\n".toList], 1⟩ :=
  (main_first_status_not_200
    (scriptedEnv (.ok ⟨503, "busy".toList⟩) (.ok ⟨200, []⟩) (.ok scenarioResponse))
    "getluckystunport".toList "node-a".toList "http://lucky.example/api".toList
    "http://backend:port/health".toList ⟨503, "busy".toList⟩ (by rfl) (by decide)).1

/-- Claim C10: when the first node with the requested name has a `PublicAddr`
without a colon, the run ends with exit code 1 at the extraction of the port,
having made the first request only, whatever nodes follow in the list: a later
node of the same name with a well-formed address is not used. -/
theorem main_no_fallback_to_later_duplicate (env : Env)
    (prog name firstURL thirdURLTemplate : Str) (firstResp : HttpResponse)
    (response : Response) (pre post : List StunNode) (node : StunNode)
    (hget : env.httpGet 0 firstURL = .ok firstResp) (hstatus : firstResp.StatusCode = 200)
    (hdec : env.jsonDecode firstResp.Body = .ok response)
    (hlist : response.List = pre ++ node :: post)
    (hpre : ∀ m ∈ pre, m.Name ≠ name) (hname : node.Name = name)
    (hcolon : ':' ∉ node.PublicAddr) :
    main env [prog, name, firstURL, thirdURLTemplate] =
      ⟨[.get firstURL,
        .stdout ("Failed to extract port from PublicAddr: ".toList
          ++ ("invalid PublicAddr format: ".toList ++ node.PublicAddr) ++ "\n".toList)], 1⟩ ∧
    (main env [prog, name, firstURL, thirdURLTemplate]).exitCode = 1 ∧
    requests (main env [prog, name, firstURL, thirdURLTemplate]).events = [firstURL] := by
  have hfind : findNode response.List name = some node :=
    (findNode_eq_some_iff _ _ _).2 ⟨pre, post, hlist, hname, hpre⟩
  have hport := GetPortFromPublicAddr_of_no_colon node.PublicAddr hcolon
  have h : main env [prog, name, firstURL, thirdURLTemplate] =
      ⟨[.get firstURL,
        .stdout ("Failed to extract port from PublicAddr: ".toList
          ++ ("invalid PublicAddr format: ".toList ++ node.PublicAddr) ++ "\n".toList)], 1⟩ := by
    simp only [main, hget, hstatus, ne_eq, not_true_eq_false, if_false, hdec, hfind, hport]
  rw [h]
  exact ⟨rfl, rfl, rfl⟩

theorem main_no_fallback_to_later_duplicate_witness :
    main (scriptedEnv (.ok ⟨200, []⟩) (.ok ⟨200, []⟩) (.ok duplicateResponse)) scenarioArgs =
      ⟨[.get "http://lucky.example/api".toList,
        .stdout "Failed to extract port from PublicAddr: invalid PublicAddr format: \n".toList],
        1⟩ :=
  (main_no_fallback_to_later_duplicate
    (scriptedEnv (.ok ⟨200, []⟩) (.ok ⟨200, []⟩) (.ok duplicateResponse))
    "getluckystunport".toList "node-a".toList "http://lucky.example/api".toList
    "http://backend:port/health".toList ⟨200, []⟩ duplicateResponse
    [{ Name := "node-b".toList, PublicAddr := "10.0.0.9:9".toList }]
    [{ Name := "node-a".toList, PublicAddr := "10.0.0.1:4500".toList }]
    { Name := "node-a".toList }
    (by rfl) (by rfl) (by rfl) (by rfl) (by decide) (by rfl) (by decide)).1

/-- Claim C8: when the first response has status 200 and decodes to a node list, the
first node with the requested name has a colon in its `PublicAddr`, and the
substituted template parses, the run makes its second request to the result of
`GenerateTargetURL` on the template and the port that `GetPortFromPublicAddr`
extracts from that node.  For the list with the one node `node-a` at
`10.0.0.1:4500`, the name `node-a` and the template `"http://backend:port/health"`
the port is `"4500"`, the parsed string is `"http://backend:4500/health"`, and the
second request goes there as soon as the URL package prints that URL back as it was
written. -/
theorem main_second_request_target :
    (∀ (env : Env) (prog name firstURL thirdURLTemplate : Str) (firstResp : HttpResponse)
      (response : Response) (pre post : List StunNode) (node : StunNode),
      env.httpGet 0 firstURL = .ok firstResp → firstResp.StatusCode = 200 →
      env.jsonDecode firstResp.Body = .ok response →
      response.List = pre ++ node :: post → (∀ m ∈ pre, m.Name ≠ name) →
      node.Name = name → ':' ∈ node.PublicAddr →
      ∃ port, GetPortFromPublicAddr node.PublicAddr = .ok port ∧
        ∀ parsedURL, env.url.Parse (newURL thirdURLTemplate port) = .ok parsedURL →
          ∃ targetURL, GenerateTargetURL env.url thirdURLTemplate port = .ok targetURL ∧
            requests (main env [prog, name, firstURL, thirdURLTemplate]).events =
              [firstURL, targetURL]) ∧
    (∀ (env : Env) (prog firstURL : Str) (firstResp : HttpResponse) (response : Response),
      env.httpGet 0 firstURL = .ok firstResp → firstResp.StatusCode = 200 →
      env.jsonDecode firstResp.Body = .ok response →
      response.List = [{ Name := "node-a".toList, PublicAddr := "10.0.0.1:4500".toList }] →
      GetPortFromPublicAddr "10.0.0.1:4500".toList = .ok "4500".toList ∧
      newURL "http://backend:port/health".toList "4500".toList =
        "http://backend:4500/health".toList ∧
      ∀ parsedURL, env.url.Parse "http://backend:4500/health".toList = .ok parsedURL →
        env.url.String parsedURL = "http://backend:4500/health".toList →
        requests (main env [prog, "node-a".toList, firstURL,
            "http://backend:port/health".toList]).events =
          [firstURL, "http://backend:4500/health".toList]) := by
  constructor
  · intro env prog name firstURL tmpl firstResp response pre post node hget hstatus hdec
      hlist hpre hname hcolon
    have hfind : findNode response.List name = some node :=
      (findNode_eq_some_iff _ _ _).2 ⟨pre, post, hlist, hname, hpre⟩
    obtain ⟨_, port, hport, _, _⟩ := GetPortFromPublicAddr_of_colon node.PublicAddr hcolon
    refine ⟨port, hport, fun parsedURL hparse => ⟨env.url.String parsedURL, ?_, ?_⟩⟩
    · simp only [GenerateTargetURL, hparse]
    · exact requests_main_at_second_request env prog name firstURL tmpl firstResp response
        node port _ hget hstatus hdec hfind hport (by simp only [GenerateTargetURL, hparse])
  · intro env prog firstURL firstResp response hget hstatus hdec hlist
    have hnew : newURL "http://backend:port/health".toList "4500".toList =
        "http://backend:4500/health".toList := by rfl
    refine ⟨by rfl, hnew, fun parsedURL hparse hstr => ?_⟩
    have hfind : findNode response.List "node-a".toList =
        some { Name := "node-a".toList, PublicAddr := "10.0.0.1:4500".toList } := by
      rw [hlist]; decide
    exact requests_main_at_second_request env prog "node-a".toList firstURL
      "http://backend:port/health".toList firstResp response
      { Name := "node-a".toList, PublicAddr := "10.0.0.1:4500".toList } "4500".toList
      "http://backend:4500/health".toList hget hstatus hdec hfind (by rfl)
      (by simp only [GenerateTargetURL, hnew, hparse, hstr])

theorem main_second_request_target_witness :
    requests (main (scriptedEnv (.ok ⟨200, []⟩) (.ok ⟨204, []⟩) (.ok scenarioResponse))
        ["getluckystunport".toList, "node-a".toList, "http://lucky.example/api".toList,
          "http://backend:port/health".toList]).events =
      ["http://lucky.example/api".toList, "http://backend:4500/health".toList] :=
  (main_second_request_target.2
    (scriptedEnv (.ok ⟨200, []⟩) (.ok ⟨204, []⟩) (.ok scenarioResponse))
    "getluckystunport".toList "http://lucky.example/api".toList ⟨200, []⟩ scenarioResponse
    (by rfl) (by rfl) (by rfl) (by rfl)).2.2 "http://backend:4500/health".toList
    (by rfl) (by rfl)

end GetLuckyStunPort
